import Mathlib

/-!
Verification development for the toxiguard-api multi-backend orchestration
engine.  The definitions below are a shallow embedding of the Python sources:

* `app/services/multi_model_analyzer.py` — `ModelResult`,
  `MultiModelAnalyzer.analyze_with_model`, `MultiModelAnalyzer.analyze_with_strategy`,
  `MultiModelAnalyzer._aggregate_results`;
* `app/services/claude_analyzer.py` — the bounded result cache
  (`ClaudeAnalyzer._update_cache`) and the cache-wrapped `analyze_text`;
* `app/services/toxic_bert_analyzer.py` — the timestamp-based cache eviction
  inside `ToxicBertAnalyzer.analyze_text` and `_calculate_confidence`.

Numeric scores are embedded as rationals (`ℚ`); Python floats carry exact
decimal constants (0.1, 0.2, 0.3, 0.6, 0.7) at every comparison relevant here.
Wall-clock durations (`response_time`, `analysis_time`) are dropped: no claim
mentions them.  Python dictionaries are embedded as association lists in
insertion order, matching CPython's documented dict iteration order, which the
eviction code relies on (`next(iter(cache))` is the first inserted key).
-/

/-- `ToxicityCategory` from `app/models/schemas.py`: one detected toxicity
dimension with a name, a score and the keywords that triggered it. -/
structure ToxicityCategory where
  name : String
  score : ℚ
  keywords_found : List String
deriving Repr, DecidableEq

/-- The outcome of one backend invocation as observed by the orchestrator:
the tuple `(score, categories, confidence)` returned by `model.analyze(text)`,
or a timeout of the `asyncio.wait_for` wrapper, or a raised exception with its
message.  This abstracts the backend-internal scoring algorithms, which the
orchestrator treats as opaque (spec §1 non-goals). -/
inductive BackendBehavior where
  | ok (score : ℚ) (categories : List ToxicityCategory) (confidence : ℚ)
  | timeout
  | exn (msg : String)

/-- `ModelResult` dataclass of `multi_model_analyzer.py` (minus the wall-clock
`response_time` field). -/
structure ModelResult where
  model_name : String
  toxicity_score : ℚ
  is_toxic : Bool
  categories : List ToxicityCategory
  confidence : ℚ
  error : Option String
deriving Repr, DecidableEq

/-- The per-model entry of the `model_details` dict built by
`_aggregate_results` (minus `response_time`). -/
structure ModelDetail where
  score : ℚ
  is_toxic : Bool
  confidence : ℚ
  error : Option String
deriving Repr, DecidableEq

/-- The `details` dict of the aggregate result: either the error payloads
`{"error": "No results"}` / `{"error": "All models failed"}` or the success
payload `{"model_results": …, "aggregation_method": …, "total_models": …,
"valid_models": …}`. -/
inductive Details where
  | err (msg : String)
  | ok (model_results : List (String × ModelDetail)) (aggregation_method : String)
      (total_models : Nat) (valid_models : Nat)
deriving Repr, DecidableEq

/-- The dict returned by `analyze_with_strategy` / `_aggregate_results`
(minus `analysis_time`).  `strategy` and `models_used` are filled in by
`analyze_with_strategy` after aggregation, exactly as in the Python code. -/
structure AggResult where
  text : String
  toxicity_score : ℚ
  is_toxic : Bool
  categories : List ToxicityCategory
  confidence : ℚ
  details : Details
  strategy : String
  models_used : List String
deriving Repr, DecidableEq

/-- The orchestrator state after `__init__`: the registry of successfully
initialized backends (`self.models`, a dict from name to analyzer, embedded
as the analyzer's `analyze` behavior per input text) and the static weight
table `self.model_weights`. -/
structure MultiModelAnalyzer where
  models : List (String × (String → BackendBehavior))
  model_weights : List (String × ℚ)

/-- Python dict assignment `d[k] = v`: replace the value in place if the key
exists (keeping its position), otherwise append at the end. -/
def dictInsert {β : Type} (d : List (String × β)) (k : String) (v : β) :
    List (String × β) :=
  if d.any (fun p => p.1 == k) then
    d.map (fun p => if p.1 == k then (k, v) else p)
  else d ++ [(k, v)]

/-- Python `del d[k]`: remove the (first) entry with key `k`. -/
def dictErase {β : Type} : List (String × β) → String → List (String × β)
  | [], _ => []
  | p :: rest, k => if p.1 == k then rest else p :: dictErase rest k

/-- The weight used by `_aggregate_results`:
`self.model_weights.get(result.model_name, 0.1)`. -/
def MultiModelAnalyzer.weightOf (A : MultiModelAnalyzer) (name : String) : ℚ :=
  (A.model_weights.lookup name).getD (1/10)

/-- `MultiModelAnalyzer.analyze_with_model`: an unregistered name yields the
"Model … not available" outcome; otherwise the backend runs under its timeout
and a timeout or exception is converted into an error outcome with all-zero
payload.  Total by construction, mirroring the blanket
`except Exception` handler in the source. -/
def MultiModelAnalyzer.analyze_with_model (A : MultiModelAnalyzer)
    (model_name text : String) : ModelResult :=
  match A.models.lookup model_name with
  | none =>
      { model_name := model_name, toxicity_score := 0, is_toxic := false,
        categories := [], confidence := 0,
        error := some ("Model " ++ model_name ++ " not available") }
  | some analyze =>
      match analyze text with
      | .ok score categories confidence =>
          { model_name := model_name, toxicity_score := score,
            is_toxic := decide ((3/10 : ℚ) ≤ score),
            categories := categories, confidence := confidence, error := none }
      | .timeout =>
          { model_name := model_name, toxicity_score := 0, is_toxic := false,
            categories := [], confidence := 0, error := some "Timeout" }
      | .exn msg =>
          { model_name := model_name, toxicity_score := 0, is_toxic := false,
            categories := [], confidence := 0, error := some msg }

/-- The `priority_models` list of the `accurate` branch of
`analyze_with_strategy`. -/
def accuratePriorityModels : List String := ["keyword", "toxic_bert", "claude"]

/-- The `results` list collected by `analyze_with_strategy` before
aggregation: which backends are dispatched (and in which order) under each
strategy.  The `cascade` gates are the source's
`0.2 <= keyword_result.toxicity_score <= 0.7` and
`0.3 <= keyword_result.toxicity_score <= 0.6 and "claude" in self.models`
tests; an unmatched strategy name falls through every branch and leaves
`results` empty. -/
def MultiModelAnalyzer.strategy_results (A : MultiModelAnalyzer)
    (text strategy : String) : List ModelResult :=
  if strategy = "fast" then
    [A.analyze_with_model "keyword" text]
  else if strategy = "cascade" then
    let keyword_result := A.analyze_with_model "keyword" text
    keyword_result ::
      (if (1/5 : ℚ) ≤ keyword_result.toxicity_score ∧
          keyword_result.toxicity_score ≤ 7/10 then
        (if (A.models.lookup "toxic_bert").isSome then
          [A.analyze_with_model "toxic_bert" text]
        else []) ++
        (if ((3/10 : ℚ) ≤ keyword_result.toxicity_score ∧
             keyword_result.toxicity_score ≤ 3/5) ∧
            (A.models.lookup "claude").isSome then
          [A.analyze_with_model "claude" text]
        else [])
      else [])
  else if strategy = "balanced" then
    A.models.map (fun p => A.analyze_with_model p.1 text)
  else if strategy = "accurate" then
    (accuratePriorityModels.filter
        (fun n => (A.models.lookup n).isSome)).map
      (fun n => A.analyze_with_model n text)
  else []

/-- The category-union loop of `_aggregate_results`: keep a category iff its
name has not been seen yet (first occurrence wins). -/
def dedup_categories (seen : List String) :
    List ToxicityCategory → List ToxicityCategory
  | [] => []
  | cat :: rest =>
      if seen.contains cat.name then dedup_categories seen rest
      else cat :: dedup_categories (cat.name :: seen) rest

/-- `MultiModelAnalyzer._aggregate_results`.  Mirrors the source exactly:
empty input → `"No results"` payload; no successful result →
`"All models failed"` payload; otherwise the weighted mean over successful
results (with the `total_weight > 0` guard), first-occurrence category
deduplication, mean confidence, and a per-model detail dict built from all
results.  The Python `strategy` parameter is unused in the method body. -/
def MultiModelAnalyzer.aggregate_results (A : MultiModelAnalyzer)
    (results : List ModelResult) (_strategy : String) : AggResult :=
  if results = [] then
    { text := "", toxicity_score := 0, is_toxic := false, categories := [],
      confidence := 0, details := .err "No results",
      strategy := "", models_used := [] }
  else
    let valid_results := results.filter (fun r => r.error.isNone)
    if valid_results = [] then
      { text := "", toxicity_score := 0, is_toxic := false, categories := [],
        confidence := 0, details := .err "All models failed",
        strategy := "", models_used := [] }
    else
      let total_weight :=
        valid_results.foldl (fun acc r => acc + A.weightOf r.model_name) 0
      let weighted_score :=
        valid_results.foldl
          (fun acc r => acc + r.toxicity_score * A.weightOf r.model_name) 0
      let final_score := if 0 < total_weight then weighted_score / total_weight else 0
      let all_categories := valid_results.flatMap (fun r => r.categories)
      let unique_categories := dedup_categories [] all_categories
      let avg_confidence :=
        (valid_results.foldl (fun acc r => acc + r.confidence) 0) /
          (valid_results.length : ℚ)
      let model_details :=
        results.foldl
          (fun md r =>
            dictInsert md r.model_name
              ⟨r.toxicity_score, r.is_toxic, r.confidence, r.error⟩) []
      { text := "", toxicity_score := final_score,
        is_toxic := decide ((3/10 : ℚ) ≤ final_score),
        categories := unique_categories, confidence := avg_confidence,
        details := .ok model_details "weighted_average"
          results.length valid_results.length,
        strategy := "", models_used := [] }

/-- `MultiModelAnalyzer.analyze_with_strategy`: collect the per-strategy
results, aggregate them, then set the `strategy` and `models_used` keys
(successful results only) on the final dict. -/
def MultiModelAnalyzer.analyze_with_strategy (A : MultiModelAnalyzer)
    (text strategy : String) : AggResult :=
  let results := A.strategy_results text strategy
  let final_result := A.aggregate_results results strategy
  { final_result with
    strategy := strategy,
    models_used :=
      (results.filter (fun r => r.error.isNone)).map (fun r => r.model_name) }

/-! ### The Claude backend's bounded result cache (`claude_analyzer.py`) -/

/-- The fields of the result dict of `ClaudeAnalyzer.analyze_text` that the
claims talk about: `toxicity_score`, `categories_detail`, `confidence`, and
the `details["cached"]` observability flag. -/
structure ClaudeResult where
  toxicity_score : ℚ
  categories_detail : List ToxicityCategory
  confidence : ℚ
  cached : Bool
deriving Repr, DecidableEq

/-- `ClaudeAnalyzer._update_cache`: when the cache has reached
`self._cache_size`, delete the oldest (first-inserted) entry —
`next(iter(self._cache))` — then store the new result. -/
def ClaudeAnalyzer.update_cache {β : Type} (cache_size : Nat)
    (cache : List (String × β)) (text : String) (result : β) :
    List (String × β) :=
  let cache := if cache_size ≤ cache.length then cache.drop 1 else cache
  dictInsert cache text result

/-- `ClaudeAnalyzer.analyze_text`.  `computeResult` abstracts the network
round-trip `_create_prompt` / `_call_claude_api` / `_parse_response`:
`some r` is a successfully parsed API response, `none` is every failure path
(client not configured, `USE_EXTERNAL_APIS` off, API timeout/error), which
returns `_get_default_result` without touching the cache.  A cache hit
returns the stored result with the cached flag switched on; a miss computes,
stores a copy, and returns the fresh result. -/
def ClaudeAnalyzer.analyze_text (computeResult : String → Option ClaudeResult)
    (cache_size : Nat) (cache : List (String × ClaudeResult)) (text : String) :
    ClaudeResult × List (String × ClaudeResult) :=
  match cache.lookup text with
  | some cached_result => ({ cached_result with cached := true }, cache)
  | none =>
      match computeResult text with
      | some result =>
          (result, ClaudeAnalyzer.update_cache cache_size cache text result)
      | none =>
          ({ toxicity_score := 0, categories_detail := [], confidence := 0,
             cached := false }, cache)

/-! ### The embedding backend's cache (`toxic_bert_analyzer.py`) -/

/-- The fields of the result dict of `ToxicBertAnalyzer.analyze_text` that the
claims talk about.  The `timestamp` field embeds the ISO wall-clock string
`datetime.now().isoformat()` as a monotonic counter (spec §3 models the cache
entry's age as a monotonic `insertionOrder` counter). -/
structure TBResult where
  score : ℚ
  is_toxic : Bool
  confidence : ℚ
  categories : List ToxicityCategory
  cache_hit : Bool
  timestamp : Nat
deriving Repr, DecidableEq

/-- `ToxicBertAnalyzer._calculate_confidence`. -/
def ToxicBertAnalyzer.calculate_confidence (score : ℚ) (has_matches : Bool) : ℚ :=
  if (7/10 : ℚ) ≤ score ∧ has_matches then 9/10
  else if (3/10 : ℚ) ≤ score ∧ has_matches then 7/10
  else if has_matches then 1/2
  else 3/10

/-- The key selected by
`min(self._cache.items(), key=lambda x: x[1].get("timestamp", ""))`:
the first entry carrying the minimal timestamp (Python's `min` keeps the
first minimum in iteration order on ties). -/
def ToxicBertAnalyzer.oldest_key : List (String × TBResult) → Option String
  | [] => none
  | c :: rest =>
      some ((rest.foldl
        (fun best p => if p.2.timestamp < best.2.timestamp then p else best)
        c).1)

/-- `ToxicBertAnalyzer.analyze_text`.  `computeScore` abstracts the embedding
similarity computation plus keyword fallback (`self.model.encode` …):
`some (score, categories)` on success, `none` when the body raises — the
`except` branch returns the error payload without caching.  On a miss, the
result is built with `is_toxic = score >= 0.3` and
`_calculate_confidence(score, bool(categories))`; if the cache is at
`_max_cache_size` the entry with the oldest timestamp is deleted before
inserting. -/
def ToxicBertAnalyzer.analyze_text
    (computeScore : String → Option (ℚ × List ToxicityCategory))
    (max_cache_size : Nat) (cache : List (String × TBResult))
    (text : String) (now : Nat) : TBResult × List (String × TBResult) :=
  match cache.lookup text with
  | some cached_result => ({ cached_result with cache_hit := true }, cache)
  | none =>
      match computeScore text with
      | some (score, categories) =>
          let result : TBResult :=
            { score := score, is_toxic := decide ((3/10 : ℚ) ≤ score),
              confidence :=
                ToxicBertAnalyzer.calculate_confidence score (!categories.isEmpty),
              categories := categories, cache_hit := false, timestamp := now }
          let cache :=
            if max_cache_size ≤ cache.length then
              match ToxicBertAnalyzer.oldest_key cache with
              | some oldest => dictErase cache oldest
              | none => cache
            else cache
          (result, dictInsert cache text result)
      | none =>
          ({ score := 0, is_toxic := false, confidence := 0, categories := [],
             cache_hit := false, timestamp := now }, cache)

/-! ### Helper lemmas about the dictionary embedding -/

theorem lookup_eq_none_of_any_eq_false {β : Type} {k : String} :
    ∀ {d : List (String × β)}, d.any (fun p => p.1 == k) = false →
      d.lookup k = none := by
  intro d
  induction d with
  | nil => intro _; rfl
  | cons p rest ih =>
      obtain ⟨pk, pv⟩ := p
      intro h
      simp only [List.any_cons, Bool.or_eq_false_iff] at h
      rw [List.lookup_cons]
      have hk : (k == pk) = false := by
        by_cases he : k = pk
        · subst he; simp at h
        · simp [he]
      rw [hk]
      exact ih h.2

theorem lookup_append_left_none {β : Type} {k : String} :
    ∀ {d : List (String × β)}, d.lookup k = none →
      ∀ l : List (String × β), (d ++ l).lookup k = l.lookup k := by
  intro d
  induction d with
  | nil => intro _ l; rfl
  | cons p rest ih =>
      obtain ⟨pk, pv⟩ := p
      intro h l
      rw [List.lookup_cons] at h
      rw [List.cons_append, List.lookup_cons]
      cases hk : k == pk with
      | true => rw [hk] at h; exact absurd h (by simp)
      | false => rw [hk] at h; exact ih h l

theorem lookup_map_replace {β : Type} {k : String} (v : β) :
    ∀ {d : List (String × β)}, d.any (fun p => p.1 == k) = true →
      (d.map (fun p => if p.1 == k then (k, v) else p)).lookup k = some v := by
  intro d
  induction d with
  | nil => intro h; simp at h
  | cons p rest ih =>
      obtain ⟨pk, pv⟩ := p
      intro h
      by_cases he : pk = k
      · subst he
        simp [List.lookup_cons]
      · have hpk : ((pk, pv).1 == k) = false := by simp [he]
        simp only [List.any_cons, hpk, Bool.false_or] at h
        have hk : (k == pk) = false := by
          simp only [beq_eq_false_iff_ne, ne_eq]
          intro hc
          exact he hc.symm
        simp only [List.map_cons, hpk, Bool.false_eq_true, if_false,
          List.lookup_cons, hk]
        exact ih h

/-- After a Python dict assignment `d[k] = v`, looking up `k` yields `v`. -/
theorem lookup_dictInsert_self {β : Type} (d : List (String × β))
    (k : String) (v : β) : (dictInsert d k v).lookup k = some v := by
  unfold dictInsert
  cases h : d.any (fun p => p.1 == k) with
  | true => simp only [if_pos rfl]; exact lookup_map_replace v h
  | false =>
      rw [if_neg (by simp [h])]
      rw [lookup_append_left_none (lookup_eq_none_of_any_eq_false h)]
      simp [List.lookup_cons]

/-- Assigning a fresh key appends it at the end of the dict. -/
theorem dictInsert_of_not_mem {β : Type} {d : List (String × β)} {k : String}
    (h : k ∉ d.map Prod.fst) (v : β) : dictInsert d k v = d ++ [(k, v)] := by
  unfold dictInsert
  rw [if_neg]
  simp only [List.any_eq_true, beq_iff_eq, not_exists]
  intro p hp
  exact h (List.mem_map.mpr ⟨p, hp.1, hp.2⟩)

theorem dictInsert_length_le {β : Type} (d : List (String × β))
    (k : String) (v : β) : (dictInsert d k v).length ≤ d.length + 1 := by
  unfold dictInsert
  split
  · simp
  · simp

/-- Replacing a value in place leaves the key sequence unchanged. -/
theorem keys_map_replace {β : Type} (d : List (String × β)) (k : String)
    (v : β) :
    (d.map (fun p => if p.1 == k then (k, v) else p)).map Prod.fst =
      d.map Prod.fst := by
  rw [List.map_map]
  apply List.map_congr_left
  intro p _
  by_cases he : p.1 = k
  · simp [he]
  · simp [he]

/-- Dict assignment never removes a key. -/
theorem mem_keys_dictInsert_of_mem {β : Type} {d : List (String × β)}
    {n : String} (h : n ∈ d.map Prod.fst) (k : String) (v : β) :
    n ∈ (dictInsert d k v).map Prod.fst := by
  unfold dictInsert
  split
  · rw [keys_map_replace]; exact h
  · simp [h]

/-- Dict assignment makes the assigned key present. -/
theorem mem_keys_dictInsert_self {β : Type} (d : List (String × β))
    (k : String) (v : β) : k ∈ (dictInsert d k v).map Prod.fst := by
  unfold dictInsert
  cases h : d.any (fun p => p.1 == k) with
  | true =>
      rw [if_pos (by simp [h]), keys_map_replace]
      simp only [List.any_eq_true, beq_iff_eq] at h
      obtain ⟨p, hp, hpk⟩ := h
      exact List.mem_map.mpr ⟨p, hp, hpk⟩
  | false => simp [h]

theorem lookup_mem {β : Type} :
    ∀ {l : List (String × β)} {k : String} {v : β},
      l.lookup k = some v → (k, v) ∈ l := by
  intro l
  induction l with
  | nil => intro k v h; simp at h
  | cons p rest ih =>
      obtain ⟨pk, pv⟩ := p
      intro k v h
      rw [List.lookup_cons] at h
      cases hk : k == pk with
      | true =>
          rw [hk] at h
          simp only [Option.some.injEq] at h
          simp only [beq_iff_eq] at hk
          subst hk; subst h
          exact List.mem_cons_self _ _
      | false =>
          rw [hk] at h
          exact List.mem_cons_of_mem _ (ih h)

theorem foldl_add_eq_sum {α : Type} (f : α → ℚ) :
    ∀ (l : List α) (a : ℚ),
      l.foldl (fun acc x => acc + f x) a = a + (l.map f).sum := by
  intro l
  induction l with
  | nil => simp
  | cons x rest ih =>
      intro a
      simp only [List.foldl_cons, List.map_cons, List.sum_cons, ih]
      ring

/-- Unfolding of `_aggregate_results` when at least one result succeeded:
the success branch of the method, with its local variables expanded. -/
theorem aggregate_results_of_valid (A : MultiModelAnalyzer)
    (results : List ModelResult) (s : String)
    (hv : results.filter (fun r => r.error.isNone) ≠ []) :
    A.aggregate_results results s =
      { text := "",
        toxicity_score :=
          if 0 < (results.filter (fun r => r.error.isNone)).foldl
              (fun acc r => acc + A.weightOf r.model_name) 0 then
            ((results.filter (fun r => r.error.isNone)).foldl
              (fun acc r => acc + r.toxicity_score * A.weightOf r.model_name) 0) /
            ((results.filter (fun r => r.error.isNone)).foldl
              (fun acc r => acc + A.weightOf r.model_name) 0)
          else 0,
        is_toxic := decide ((3/10 : ℚ) ≤
          if 0 < (results.filter (fun r => r.error.isNone)).foldl
              (fun acc r => acc + A.weightOf r.model_name) 0 then
            ((results.filter (fun r => r.error.isNone)).foldl
              (fun acc r => acc + r.toxicity_score * A.weightOf r.model_name) 0) /
            ((results.filter (fun r => r.error.isNone)).foldl
              (fun acc r => acc + A.weightOf r.model_name) 0)
          else 0),
        categories := dedup_categories []
          ((results.filter (fun r => r.error.isNone)).flatMap fun r => r.categories),
        confidence := ((results.filter (fun r => r.error.isNone)).foldl
            (fun acc r => acc + r.confidence) 0) /
          ((results.filter (fun r => r.error.isNone)).length : ℚ),
        details := .ok
          (results.foldl (fun md r => dictInsert md r.model_name
            ⟨r.toxicity_score, r.is_toxic, r.confidence, r.error⟩) [])
          "weighted_average" results.length
          (results.filter (fun r => r.error.isNone)).length,
        strategy := "", models_used := [] } := by
  have hr : results ≠ [] := by
    intro h
    rw [h] at hv
    simp at hv
  simp only [MultiModelAnalyzer.aggregate_results, if_neg hr, if_neg hv]

/-- The category-dedup loop keeps, for every name not yet seen, exactly the
first category carrying that name (and drops names already seen). -/
theorem dedup_categories_filter (n : String) :
    ∀ (cs : List ToxicityCategory) (seen : List String),
      (dedup_categories seen cs).filter (fun c => c.name == n) =
        if seen.contains n then []
        else (cs.find? (fun c => c.name == n)).toList := by
  intro cs
  induction cs with
  | nil => intro seen; by_cases h : n ∈ seen <;> simp [dedup_categories, h]
  | cons c rest ih =>
      intro seen
      by_cases hseen : c.name ∈ seen
      · rw [dedup_categories, if_pos (by simpa using hseen), ih]
        by_cases hcn : c.name = n
        · subst hcn
          simp [hseen]
        · rw [List.find?_cons_of_neg _ (by simp [hcn])]
      · rw [dedup_categories, if_neg (by simpa using hseen), List.filter_cons]
        by_cases hcn : c.name = n
        · subst hcn
          rw [if_pos (by simp), ih, if_pos (by simp),
            if_neg (by simpa using hseen),
            List.find?_cons_of_pos _ (by simp)]
          rfl
        · have hnc : n ≠ c.name := fun h => hcn h.symm
          rw [if_neg (by simp [hcn]), ih,
            List.find?_cons_of_neg _ (by simp [hcn])]
          by_cases hns : n ∈ seen
          · rw [if_pos (by simp [hns]), if_pos (by simp [hns])]
          · rw [if_neg (by simp [hns, hnc]), if_neg (by simp [hns])]

/-! ### Claim theorems -/

/-- C2: whenever at least one backend was attempted and every attempted
outcome carries a failure, `_aggregate_results` returns exactly the
all-failed error result — toxicity score 0, not toxic, no categories,
confidence 0, and the `"All models failed"` error payload in `details` —
and no aggregation with at least one successful outcome ever carries an
error payload in `details`, so the caller can distinguish the all-failed
result from a normal success whose score happens to be 0. -/
theorem c2_all_backends_failed (A : MultiModelAnalyzer)
    (results : List ModelResult) (s : String) (hne : results ≠ [])
    (hfail : ∀ r ∈ results, r.error.isSome) :
    A.aggregate_results results s =
      { text := "", toxicity_score := 0, is_toxic := false, categories := [],
        confidence := 0, details := .err "All models failed",
        strategy := "", models_used := [] } ∧
    ∀ (B : MultiModelAnalyzer) (rs : List ModelResult) (s2 : String)
      (r : ModelResult), r ∈ rs → r.error.isNone →
        ∀ msg, (B.aggregate_results rs s2).details ≠ Details.err msg := by
  constructor
  · have hv : results.filter (fun r => r.error.isNone) = [] := by
      rw [List.filter_eq_nil_iff]
      intro r hr
      have := hfail r hr
      simp [Option.isNone_iff_eq_none]
      intro hnone
      rw [hnone] at this
      simp at this
    simp only [MultiModelAnalyzer.aggregate_results, if_neg hne, hv,
      if_pos rfl]
    simp
  · intro B rs s2 r hr hsucc msg
    have hv : rs.filter (fun x => x.error.isNone) ≠ [] :=
      List.ne_nil_of_mem (List.mem_filter.mpr ⟨hr, hsucc⟩)
    rw [aggregate_results_of_valid B rs s2 hv]
    simp

/-- Witness for C2 at a concrete input: a single timed-out backend outcome
aggregates to the all-failed error result. -/
theorem c2_all_backends_failed_witness :
    MultiModelAnalyzer.aggregate_results ⟨[], []⟩
      [⟨"keyword", 0, false, [], 0, some "Timeout"⟩] "fast" =
      { text := "", toxicity_score := 0, is_toxic := false, categories := [],
        confidence := 0, details := .err "All models failed",
        strategy := "", models_used := [] } :=
  (c2_all_backends_failed ⟨[], []⟩ _ "fast" (by simp) (by simp)).1

/-- C3: with nonnegative configured weights and at least one successful
outcome, the aggregated toxicity score is the weighted mean
Σ(score·weight)/Σ(weight) over the successful outcomes only, and the weight
of any backend without an explicit entry in the weight table defaults
to 0.1. -/
theorem c3_weighted_mean (A : MultiModelAnalyzer)
    (results : List ModelResult) (s : String)
    (hw : ∀ p ∈ A.model_weights, 0 ≤ p.2)
    (hv : results.filter (fun r => r.error.isNone) ≠ []) :
    (A.aggregate_results results s).toxicity_score =
      ((results.filter (fun r => r.error.isNone)).map
          (fun r => r.toxicity_score * A.weightOf r.model_name)).sum /
        ((results.filter (fun r => r.error.isNone)).map
          (fun r => A.weightOf r.model_name)).sum ∧
    ∀ name, A.model_weights.lookup name = none → A.weightOf name = 1/10 := by
  constructor
  · rw [aggregate_results_of_valid A results s hv]
    simp only [foldl_add_eq_sum, zero_add]
    by_cases hpos :
        0 < ((results.filter (fun r => r.error.isNone)).map
          (fun r => A.weightOf r.model_name)).sum
    · rw [if_pos hpos]
    · rw [if_neg hpos]
      have hnonneg :
          0 ≤ ((results.filter (fun r => r.error.isNone)).map
            (fun r => A.weightOf r.model_name)).sum := by
        apply List.sum_nonneg
        intro x hx
        simp only [List.mem_map] at hx
        obtain ⟨r, _, hrx⟩ := hx
        rw [← hrx]
        unfold MultiModelAnalyzer.weightOf
        cases hl : A.model_weights.lookup r.model_name with
        | none => norm_num
        | some w =>
            simpa using hw (r.model_name, w) (lookup_mem hl)
      have hzero :
          ((results.filter (fun r => r.error.isNone)).map
            (fun r => A.weightOf r.model_name)).sum = 0 :=
        le_antisymm (not_lt.mp hpos) hnonneg
      rw [hzero, div_zero]
  · intro name hname
    unfold MultiModelAnalyzer.weightOf
    rw [hname]
    rfl

/-- Witness for C3 at the spec's concrete example: two successes with scores
0.8 and 0.2 under weights 0.6 and 0.4 aggregate to exactly 0.56. -/
theorem c3_weighted_mean_witness :
    (MultiModelAnalyzer.aggregate_results ⟨[], [("a", 3/5), ("b", 2/5)]⟩
      [⟨"a", 4/5, true, [], 1, none⟩, ⟨"b", 1/5, false, [], 1, none⟩]
      "balanced").toxicity_score = 14/25 := by
  have h := (c3_weighted_mean ⟨[], [("a", 3/5), ("b", 2/5)]⟩
    [⟨"a", 4/5, true, [], 1, none⟩, ⟨"b", 1/5, false, [], 1, none⟩]
    "balanced" (by norm_num) (by simp)).1
  rw [h]
  simp [MultiModelAnalyzer.weightOf, List.lookup]
  norm_num

/-- C4: whenever at least one backend succeeded, the aggregate's `is_toxic`
verdict holds exactly when the final weighted score is at least 0.3
(boundary inclusive). -/
theorem c4_toxicity_threshold (A : MultiModelAnalyzer)
    (results : List ModelResult) (s : String)
    (hv : results.filter (fun r => r.error.isNone) ≠ []) :
    ((A.aggregate_results results s).is_toxic = true ↔
      (3/10 : ℚ) ≤ (A.aggregate_results results s).toxicity_score) := by
  rw [aggregate_results_of_valid A results s hv]
  simp

/-- Witness for C4 at the boundary: a lone success scoring exactly 0.3 is
judged toxic, a lone success scoring 0.2999 is not. -/
theorem c4_toxicity_threshold_witness :
    (MultiModelAnalyzer.aggregate_results ⟨[], []⟩
      [⟨"keyword", 3/10, true, [], 1, none⟩] "fast").is_toxic = true ∧
    (MultiModelAnalyzer.aggregate_results ⟨[], []⟩
      [⟨"keyword", 2999/10000, true, [], 1, none⟩] "fast").is_toxic = false := by
  constructor
  · apply (c4_toxicity_threshold ⟨[], []⟩
      [⟨"keyword", 3/10, true, [], 1, none⟩] "fast" (by simp)).mpr
    rw [aggregate_results_of_valid ⟨[], []⟩ _ "fast" (by simp)]
    simp [MultiModelAnalyzer.weightOf, List.lookup]
  · have h := c4_toxicity_threshold ⟨[], []⟩
      [⟨"keyword", 2999/10000, true, [], 1, none⟩] "fast" (by simp)
    cases hb : (MultiModelAnalyzer.aggregate_results ⟨[], []⟩
        [⟨"keyword", 2999/10000, true, [], 1, none⟩] "fast").is_toxic with
    | false => rfl
    | true =>
        exfalso
        have hle := h.mp hb
        rw [aggregate_results_of_valid ⟨[], []⟩ _ "fast" (by simp)] at hle
        simp [MultiModelAnalyzer.weightOf, List.lookup] at hle
        norm_num at hle

/-- C10: the single-backend dispatch `analyze_with_model` is a total
function of its inputs; an unregistered name yields the unavailable-error
outcome, a timeout or an exception raised by the backend is converted into
an outcome whose error field is set (to `"Timeout"`, resp. the exception
message), and every outcome with an error set carries toxicity score 0,
is-toxic false, no categories and confidence 0. -/
theorem c10_dispatch_total (A : MultiModelAnalyzer) (name text : String) :
    (A.models.lookup name = none →
      A.analyze_with_model name text =
        ⟨name, 0, false, [], 0, some ("Model " ++ name ++ " not available")⟩) ∧
    (∀ f, A.models.lookup name = some f →
      (f text = .timeout →
        (A.analyze_with_model name text).error = some "Timeout") ∧
      (∀ msg, f text = .exn msg →
        (A.analyze_with_model name text).error = some msg)) ∧
    ((A.analyze_with_model name text).error.isSome →
      (A.analyze_with_model name text).toxicity_score = 0 ∧
      (A.analyze_with_model name text).is_toxic = false ∧
      (A.analyze_with_model name text).categories = [] ∧
      (A.analyze_with_model name text).confidence = 0) := by
  refine ⟨?_, ?_, ?_⟩
  · intro h
    simp [MultiModelAnalyzer.analyze_with_model, h]
  · intro f hf
    constructor
    · intro ht
      simp [MultiModelAnalyzer.analyze_with_model, hf, ht]
    · intro msg hm
      simp [MultiModelAnalyzer.analyze_with_model, hf, hm]
  · intro herr
    unfold MultiModelAnalyzer.analyze_with_model at herr ⊢
    cases hl : A.models.lookup name with
    | none => simp
    | some f =>
        cases hb : f text with
        | ok sc cats conf =>
            rw [hl] at herr
            simp only [hb] at herr
            simp at herr
        | timeout => simp [hb]
        | exn msg => simp [hb]

/-- Witness for C10 at concrete inputs: a registered backend that times out
produces the zeroed Timeout outcome, and an unregistered name produces the
unavailable outcome. -/
theorem c10_dispatch_total_witness :
    (MultiModelAnalyzer.analyze_with_model
      ⟨[("keyword", fun _ => .timeout)], []⟩ "keyword" "x").error =
        some "Timeout" ∧
    (MultiModelAnalyzer.analyze_with_model
      ⟨[("keyword", fun _ => .timeout)], []⟩ "keyword" "x").toxicity_score = 0 ∧
    MultiModelAnalyzer.analyze_with_model
      ⟨[("keyword", fun _ => .timeout)], []⟩ "mistral" "x" =
        ⟨"mistral", 0, false, [], 0, some "Model mistral not available"⟩ := by
  refine ⟨?_, ?_, ?_⟩
  · exact ((c10_dispatch_total ⟨[("keyword", fun _ => .timeout)], []⟩
      "keyword" "x").2.1 (fun _ => .timeout) (by simp [List.lookup])).1 rfl
  · refine ((c10_dispatch_total ⟨[("keyword", fun _ => .timeout)], []⟩
      "keyword" "x").2.2 ?_).1
    exact ((c10_dispatch_total ⟨[("keyword", fun _ => .timeout)], []⟩
      "keyword" "x").2.1 (fun _ => .timeout) (by simp [List.lookup])).1 rfl ▸
        rfl
  · exact (c10_dispatch_total ⟨[("keyword", fun _ => .timeout)], []⟩
      "mistral" "x").1 (by simp [List.lookup])

/-- C6: in every aggregation, the entries of the final category list carrying
a given name are exactly the first occurrence of that name in the
concatenation of the successful outcomes' category lists (in outcome order):
deduplication is by name, keeps the first occurrence and its score, and drops
later same-named categories.  In particular two successful outcomes both
carrying a category named "重度の毒性" with different scores yield exactly one
entry, with the earlier outcome's score. -/
theorem c6_category_dedup (A : MultiModelAnalyzer)
    (results : List ModelResult) (s n : String) :
    (A.aggregate_results results s).categories.filter (fun c => c.name == n) =
      (((results.filter (fun r => r.error.isNone)).flatMap
          (fun r => r.categories)).find? (fun c => c.name == n)).toList ∧
    (MultiModelAnalyzer.aggregate_results ⟨[], []⟩
      [⟨"keyword", 9/10, true, [⟨"重度の毒性", 9/10, ["死ね"]⟩], 1, none⟩,
       ⟨"claude", 2/5, true, [⟨"重度の毒性", 2/5, []⟩], 1, none⟩]
      "balanced").categories = [⟨"重度の毒性", 9/10, ["死ね"]⟩] := by
  constructor
  · by_cases hne : results = []
    · subst hne
      simp [MultiModelAnalyzer.aggregate_results]
    · by_cases hv : results.filter (fun r => r.error.isNone) = []
      · simp only [MultiModelAnalyzer.aggregate_results, if_neg hne, hv,
          if_pos rfl]
        simp
      · rw [aggregate_results_of_valid A results s hv]
        simp only
        rw [dedup_categories_filter]
        simp
  · rw [aggregate_results_of_valid ⟨[], []⟩ _ "balanced" (by simp)]
    simp only
    simp [dedup_categories]

/-- Every outcome returned by `analyze_with_model` is tagged with the
dispatched backend's name. -/
theorem analyze_with_model_name (A : MultiModelAnalyzer) (n t : String) :
    (A.analyze_with_model n t).model_name = n := by
  unfold MultiModelAnalyzer.analyze_with_model
  cases hl : A.models.lookup n with
  | none => rfl
  | some f => cases hb : f t <;> simp [hb]

/-- C5: under the `cascade` strategy the gates are inclusive on both ends.
If the keyword score lies in [0.2, 0.7] the embedding stage runs (when the
embedding backend is registered); if it lies in [0.3, 0.6] the remote-LLM
stage runs as well (when registered); if it lies outside [0.2, 0.7] only the
keyword backend is dispatched; and outside [0.3, 0.6] the remote-LLM backend
is never dispatched. -/
theorem c5_cascade_gates (A : MultiModelAnalyzer) (text : String) :
    (((1/5 : ℚ) ≤ (A.analyze_with_model "keyword" text).toxicity_score ∧
        (A.analyze_with_model "keyword" text).toxicity_score ≤ 7/10) →
      (A.models.lookup "toxic_bert").isSome = true →
      "toxic_bert" ∈
        (A.strategy_results text "cascade").map (fun r => r.model_name)) ∧
    (((3/10 : ℚ) ≤ (A.analyze_with_model "keyword" text).toxicity_score ∧
        (A.analyze_with_model "keyword" text).toxicity_score ≤ 3/5) →
      (A.models.lookup "claude").isSome = true →
      "claude" ∈
        (A.strategy_results text "cascade").map (fun r => r.model_name)) ∧
    (¬((1/5 : ℚ) ≤ (A.analyze_with_model "keyword" text).toxicity_score ∧
        (A.analyze_with_model "keyword" text).toxicity_score ≤ 7/10) →
      (A.strategy_results text "cascade").map (fun r => r.model_name) =
        ["keyword"]) ∧
    (¬((3/10 : ℚ) ≤ (A.analyze_with_model "keyword" text).toxicity_score ∧
        (A.analyze_with_model "keyword" text).toxicity_score ≤ 3/5) →
      "claude" ∉
        (A.strategy_results text "cascade").map (fun r => r.model_name)) := by
  have hc : MultiModelAnalyzer.strategy_results A text "cascade" =
      (A.analyze_with_model "keyword" text) ::
        (if (1/5 : ℚ) ≤ (A.analyze_with_model "keyword" text).toxicity_score ∧
            (A.analyze_with_model "keyword" text).toxicity_score ≤ 7/10 then
          (if (A.models.lookup "toxic_bert").isSome then
            [A.analyze_with_model "toxic_bert" text]
          else []) ++
          (if ((3/10 : ℚ) ≤ (A.analyze_with_model "keyword" text).toxicity_score ∧
               (A.analyze_with_model "keyword" text).toxicity_score ≤ 3/5) ∧
              (A.models.lookup "claude").isSome then
            [A.analyze_with_model "claude" text]
          else [])
        else []) := by
    simp only [MultiModelAnalyzer.strategy_results]
    rfl
  refine ⟨?_, ?_, ?_, ?_⟩
  · intro hg hbert
    rw [hc, if_pos hg, if_pos hbert]
    refine List.mem_map.mpr
      ⟨A.analyze_with_model "toxic_bert" text, ?_,
        analyze_with_model_name A "toxic_bert" text⟩
    exact List.mem_cons_of_mem _
      (List.mem_append_left _ (List.mem_cons_self _ _))
  · intro hg hclaude
    have hg1 : (1/5 : ℚ) ≤ (A.analyze_with_model "keyword" text).toxicity_score ∧
        (A.analyze_with_model "keyword" text).toxicity_score ≤ 7/10 := by
      constructor
      · linarith [hg.1]
      · linarith [hg.2]
    rw [hc, if_pos hg1, if_pos (And.intro hg hclaude)]
    refine List.mem_map.mpr
      ⟨A.analyze_with_model "claude" text, ?_,
        analyze_with_model_name A "claude" text⟩
    exact List.mem_cons_of_mem _
      (List.mem_append_right _ (List.mem_cons_self _ _))
  · intro hg
    rw [hc, if_neg hg]
    simp [analyze_with_model_name]
  · intro hg
    have hnotclaude :
        ¬(((3/10 : ℚ) ≤ (A.analyze_with_model "keyword" text).toxicity_score ∧
            (A.analyze_with_model "keyword" text).toxicity_score ≤ 3/5) ∧
          (A.models.lookup "claude").isSome = true) := fun h => hg h.1
    by_cases hg1 :
        (1/5 : ℚ) ≤ (A.analyze_with_model "keyword" text).toxicity_score ∧
          (A.analyze_with_model "keyword" text).toxicity_score ≤ 7/10
    · rw [hc, if_pos hg1, if_neg hnotclaude]
      by_cases hbert : (A.models.lookup "toxic_bert").isSome = true
      · rw [if_pos hbert]
        simp [analyze_with_model_name]
      · rw [if_neg hbert]
        simp [analyze_with_model_name]
    · rw [hc, if_neg hg1]
      simp [analyze_with_model_name]

/-- Witness for C5 at the spec's boundary examples: with all three backends
registered, a keyword score of exactly 0.5 dispatches both the embedding and
the remote-LLM backend, while a keyword score of 0.1 dispatches only the
keyword backend. -/
theorem c5_cascade_gates_witness :
    ("toxic_bert" ∈
      (MultiModelAnalyzer.strategy_results
        ⟨[("keyword", fun _ => .ok (1/2) [] 1),
          ("toxic_bert", fun _ => .ok 0 [] 1),
          ("claude", fun _ => .ok 0 [] 1)], []⟩ "x" "cascade").map
        (fun r => r.model_name) ∧
     "claude" ∈
      (MultiModelAnalyzer.strategy_results
        ⟨[("keyword", fun _ => .ok (1/2) [] 1),
          ("toxic_bert", fun _ => .ok 0 [] 1),
          ("claude", fun _ => .ok 0 [] 1)], []⟩ "x" "cascade").map
        (fun r => r.model_name)) ∧
    (MultiModelAnalyzer.strategy_results
        ⟨[("keyword", fun _ => .ok (1/10) [] 1),
          ("toxic_bert", fun _ => .ok 0 [] 1),
          ("claude", fun _ => .ok 0 [] 1)], []⟩ "x" "cascade").map
      (fun r => r.model_name) = ["keyword"] := by
  refine ⟨⟨?_, ?_⟩, ?_⟩
  · apply (c5_cascade_gates ⟨[("keyword", fun _ => .ok (1/2) [] 1),
      ("toxic_bert", fun _ => .ok 0 [] 1),
      ("claude", fun _ => .ok 0 [] 1)], []⟩ "x").1
    · constructor <;>
      · simp [MultiModelAnalyzer.analyze_with_model, List.lookup]
        norm_num
    · simp [List.lookup]
  · apply (c5_cascade_gates ⟨[("keyword", fun _ => .ok (1/2) [] 1),
      ("toxic_bert", fun _ => .ok 0 [] 1),
      ("claude", fun _ => .ok 0 [] 1)], []⟩ "x").2.1
    · constructor <;>
      · simp [MultiModelAnalyzer.analyze_with_model, List.lookup]
        norm_num
    · simp [List.lookup]
  · apply (c5_cascade_gates ⟨[("keyword", fun _ => .ok (1/10) [] 1),
      ("toxic_bert", fun _ => .ok 0 [] 1),
      ("claude", fun _ => .ok 0 [] 1)], []⟩ "x").2.2.1
    intro hg
    have h1 := hg.1
    simp [MultiModelAnalyzer.analyze_with_model, List.lookup] at h1
    norm_num at h1

/-- The backend names recorded in the per-model `details` payload
(`details["model_results"].keys()`), empty for the error payloads. -/
def detailNames : Details → List String
  | .err _ => []
  | .ok md _ _ _ => md.map Prod.fst

theorem filter_idem {α : Type} (p : α → Bool) (l : List α) :
    (l.filter p).filter p = l.filter p := by
  induction l with
  | nil => rfl
  | cons x rest ih =>
      by_cases hx : p x = true
      · simp [List.filter_cons, hx, ih]
      · simp [List.filter_cons, hx, ih]

theorem mem_keys_foldl_dictInsert_of_mem {α β : Type} (key : α → String)
    (val : α → β) {n : String} :
    ∀ (l : List α) (init : List (String × β)), n ∈ init.map Prod.fst →
      n ∈ (l.foldl (fun md x => dictInsert md (key x) (val x)) init).map
        Prod.fst := by
  intro l
  induction l with
  | nil => intro init h; exact h
  | cons x rest ih =>
      intro init h
      exact ih (dictInsert init (key x) (val x))
        (mem_keys_dictInsert_of_mem h (key x) (val x))

theorem mem_keys_foldl_dictInsert {α β : Type} (key : α → String)
    (val : α → β) {a : α} :
    ∀ (l : List α) (init : List (String × β)), a ∈ l →
      key a ∈ (l.foldl (fun md x => dictInsert md (key x) (val x)) init).map
        Prod.fst := by
  intro l
  induction l with
  | nil => intro init h; simp at h
  | cons x rest ih =>
      intro init h
      rcases List.mem_cons.mp h with h | h
      · subst h
        exact mem_keys_foldl_dictInsert_of_mem key val rest _
          (mem_keys_dictInsert_self init (key a) (val a))
      · exact ih _ h

/-- C1 counterexample: calling `analyze_with_strategy` with the unknown
strategy identifier "turbo" does not produce any InvalidStrategy error.  It
returns the generic empty-results payload (`details.error = "No results"`,
score 0.0, not toxic), and — apart from the echoed strategy string — that
result is byte-for-byte identical to the one a perfectly valid strategy
("balanced" on an orchestrator with an empty registry) produces, so nothing
in the result identifies the strategy as invalid. -/
theorem c1_counterexample :
    (MultiModelAnalyzer.analyze_with_strategy
      ⟨[("keyword", fun _ => .ok 0 [] 1)], []⟩ "hello" "turbo").details =
      Details.err "No results" ∧
    { MultiModelAnalyzer.analyze_with_strategy
        ⟨[("keyword", fun _ => .ok 0 [] 1)], []⟩ "hello" "turbo" with
      strategy := "balanced" } =
      MultiModelAnalyzer.analyze_with_strategy ⟨[], []⟩ "hello" "balanced" := by
  constructor
  · rfl
  · rfl

/-- C1 amended: for every strategy identifier outside
{fast, cascade, balanced, accurate}, `analyze_with_strategy` dispatches no
backend and does not fall back to a default strategy; it returns the
empty-results aggregate — toxicity score 0.0, not toxic, no categories,
confidence 0.0, `details.error = "No results"`, no models used — rather than
a result carrying a dedicated InvalidStrategy error. -/
theorem c1_invalid_strategy_amended (A : MultiModelAnalyzer)
    (text strategy : String)
    (h : strategy ∉ (["fast", "cascade", "balanced", "accurate"] :
      List String)) :
    A.strategy_results text strategy = [] ∧
    A.analyze_with_strategy text strategy =
      { text := "", toxicity_score := 0, is_toxic := false, categories := [],
        confidence := 0, details := .err "No results",
        strategy := strategy, models_used := [] } := by
  simp only [List.mem_cons, List.mem_singleton, not_or] at h
  obtain ⟨h1, h2, h3, h4, -⟩ := h
  have hr : A.strategy_results text strategy = [] := by
    unfold MultiModelAnalyzer.strategy_results
    rw [if_neg h1, if_neg h2, if_neg h3, if_neg h4]
  refine ⟨hr, ?_⟩
  unfold MultiModelAnalyzer.analyze_with_strategy
  rw [hr]
  simp [MultiModelAnalyzer.aggregate_results]

/-- Witness for the amended C1 at the concrete strategy "turbo". -/
theorem c1_invalid_strategy_amended_witness :
    MultiModelAnalyzer.analyze_with_strategy
      ⟨[("keyword", fun _ => .ok 0 [] 1)], []⟩ "hello" "turbo" =
      { text := "", toxicity_score := 0, is_toxic := false, categories := [],
        confidence := 0, details := .err "No results",
        strategy := "turbo", models_used := [] } :=
  (c1_invalid_strategy_amended ⟨[("keyword", fun _ => .ok 0 [] 1)], []⟩
    "hello" "turbo" (by simp)).2

/-- C9 counterexample: the `accurate` strategy's plan names the backend
`toxic_bert`, yet on an orchestrator whose registry holds only `keyword`,
the request produces no outcome at all for `toxic_bert` — it is skipped by
the `if model_name in self.models` guard rather than recorded as an
Unavailable outcome — and `toxic_bert` is absent from the per-backend
details payload of the final result. -/
theorem c9_counterexample :
    "toxic_bert" ∈ accuratePriorityModels ∧
    (List.lookup "toxic_bert"
      (MultiModelAnalyzer.mk [("keyword", fun _ => .ok 0 [] 1)] []).models) =
      none ∧
    (MultiModelAnalyzer.strategy_results
      ⟨[("keyword", fun _ => .ok 0 [] 1)], []⟩ "x" "accurate").map
      (fun r => r.model_name) = ["keyword"] ∧
    "toxic_bert" ∉ detailNames (MultiModelAnalyzer.analyze_with_strategy
      ⟨[("keyword", fun _ => .ok 0 [] 1)], []⟩ "x" "accurate").details := by
  refine ⟨by simp [accuratePriorityModels], by simp [List.lookup], ?_, ?_⟩
  · simp [MultiModelAnalyzer.strategy_results, accuratePriorityModels,
      MultiModelAnalyzer.analyze_with_model, List.lookup]
  · simp [MultiModelAnalyzer.analyze_with_strategy,
      MultiModelAnalyzer.strategy_results, accuratePriorityModels,
      MultiModelAnalyzer.aggregate_results, MultiModelAnalyzer.analyze_with_model,
      MultiModelAnalyzer.weightOf, List.lookup, detailNames, dictInsert]

/-- C9 amended: only a backend name that is dispatched unconditionally (such
as `keyword` under `fast`/`cascade`) yields an explicit unavailable outcome
when missing from the registry: `analyze_with_model` on an unregistered name
returns the "Model … not available" error outcome; failed outcomes contribute
nothing to the aggregate's score, categories, confidence or verdict (which
coincide with those of the successes alone); and whenever at least one
backend succeeded, every dispatched backend — including failed ones — appears
by name in the per-backend details payload. -/
theorem c9_unavailable_amended (A : MultiModelAnalyzer)
    (name text s : String) (results : List ModelResult) (r : ModelResult) :
    (A.models.lookup name = none →
      A.analyze_with_model name text =
        ⟨name, 0, false, [], 0,
          some ("Model " ++ name ++ " not available")⟩) ∧
    (results ≠ [] →
      (A.aggregate_results results s).toxicity_score =
        (A.aggregate_results (results.filter (fun x => x.error.isNone))
          s).toxicity_score ∧
      (A.aggregate_results results s).categories =
        (A.aggregate_results (results.filter (fun x => x.error.isNone))
          s).categories ∧
      (A.aggregate_results results s).confidence =
        (A.aggregate_results (results.filter (fun x => x.error.isNone))
          s).confidence ∧
      (A.aggregate_results results s).is_toxic =
        (A.aggregate_results (results.filter (fun x => x.error.isNone))
          s).is_toxic) ∧
    (results.filter (fun x => x.error.isNone) ≠ [] → r ∈ results →
      r.model_name ∈ detailNames (A.aggregate_results results s).details) := by
  refine ⟨?_, ?_, ?_⟩
  · intro h
    simp [MultiModelAnalyzer.analyze_with_model, h]
  · intro hne
    by_cases hv : results.filter (fun x => x.error.isNone) = []
    · rw [hv]
      simp only [MultiModelAnalyzer.aggregate_results, if_neg hne, hv,
        if_pos rfl]
      simp
    · rw [aggregate_results_of_valid A results s hv,
        aggregate_results_of_valid A (results.filter (fun x => x.error.isNone))
          s (by rw [filter_idem]; exact hv)]
      rw [filter_idem]
      exact ⟨rfl, rfl, rfl, rfl⟩
  · intro hv hr
    rw [aggregate_results_of_valid A results s hv]
    simp only [detailNames]
    exact mem_keys_foldl_dictInsert (fun x : ModelResult => x.model_name)
      (fun x : ModelResult =>
        ModelDetail.mk x.toxicity_score x.is_toxic x.confidence x.error)
      results [] hr

/-- Witness for the amended C9 at concrete inputs: an unregistered backend
dispatched by name yields the unavailable outcome; with one failed and one
successful outcome the aggregate score equals the score computed from the
success alone, and the failed backend's name still appears in the details. -/
theorem c9_unavailable_amended_witness :
    MultiModelAnalyzer.analyze_with_model ⟨[], []⟩ "toxic_bert" "x" =
      ⟨"toxic_bert", 0, false, [], 0,
        some "Model toxic_bert not available"⟩ ∧
    (MultiModelAnalyzer.aggregate_results ⟨[], []⟩
      [⟨"claude", 0, false, [], 0, some "Timeout"⟩,
       ⟨"keyword", 1/2, true, [], 1, none⟩] "fast").toxicity_score =
      (MultiModelAnalyzer.aggregate_results ⟨[], []⟩
        ([⟨"claude", 0, false, [], 0, some "Timeout"⟩,
          ⟨"keyword", 1/2, true, [], 1, none⟩].filter
            (fun x => x.error.isNone)) "fast").toxicity_score ∧
    "claude" ∈ detailNames (MultiModelAnalyzer.aggregate_results ⟨[], []⟩
      [⟨"claude", 0, false, [], 0, some "Timeout"⟩,
       ⟨"keyword", 1/2, true, [], 1, none⟩] "fast").details := by
  refine ⟨?_, ?_, ?_⟩
  · exact (c9_unavailable_amended ⟨[], []⟩ "toxic_bert" "x" "fast" []
      ⟨"", 0, false, [], 0, none⟩).1 (by simp)
  · exact ((c9_unavailable_amended ⟨[], []⟩ "toxic_bert" "x" "fast"
      [⟨"claude", 0, false, [], 0, some "Timeout"⟩,
       ⟨"keyword", 1/2, true, [], 1, none⟩]
      ⟨"", 0, false, [], 0, none⟩).2.1 (by simp)).1
  · exact (c9_unavailable_amended ⟨[], []⟩ "toxic_bert" "x" "fast"
      [⟨"claude", 0, false, [], 0, some "Timeout"⟩,
       ⟨"keyword", 1/2, true, [], 1, none⟩]
      ⟨"claude", 0, false, [], 0, some "Timeout"⟩).2.2 (by simp)
      (by simp)

/-- Filling a cache with fresh keys while it stays under capacity is plain
appending: no eviction fires and every insertion lands at the end. -/
theorem foldl_update_cache_fill {β : Type} (N : Nat) :
    ∀ (ks : List (String × β)) (c : List (String × β)),
      c.length + ks.length ≤ N →
      ((c ++ ks).map Prod.fst).Nodup →
      ks.foldl
        (fun cache kv => ClaudeAnalyzer.update_cache N cache kv.1 kv.2) c =
        c ++ ks := by
  intro ks
  induction ks with
  | nil => intro c _ _; simp
  | cons kv rest ih =>
      intro c hlen hnodup
      simp only [List.length_cons] at hlen
      have hc : c.length < N := by omega
      have hfresh : kv.1 ∉ c.map Prod.fst := by
        rw [List.map_append] at hnodup
        have hdisj := List.disjoint_of_nodup_append hnodup
        intro hmem
        exact hdisj hmem (by simp)
      have hstep : ClaudeAnalyzer.update_cache N c kv.1 kv.2 = c ++ [kv] := by
        unfold ClaudeAnalyzer.update_cache
        rw [if_neg (by omega)]
        exact dictInsert_of_not_mem hfresh kv.2
      rw [List.foldl_cons, hstep]
      have heq : (c ++ [kv]) ++ rest = c ++ kv :: rest := by
        rw [List.append_assoc]
        rfl
      rw [ih (c ++ [kv])
        (by simp only [List.length_append, List.length_cons,
          List.length_nil]; omega)
        (by rw [heq]; exact hnodup), heq]

/-- Any fold of minimum-selection that never finds a strictly smaller element
returns its seed. -/
theorem foldl_min_timestamp_eq_of_not_lt :
    ∀ (rest : List (String × TBResult)) (best : String × TBResult),
      (∀ p ∈ rest, ¬ p.2.timestamp < best.2.timestamp) →
      rest.foldl
        (fun best p => if p.2.timestamp < best.2.timestamp then p else best)
        best = best := by
  intro rest
  induction rest with
  | nil => intro best _; rfl
  | cons p rs ih =>
      intro best h
      rw [List.foldl_cons, if_neg (h p (by simp))]
      exact ih best (fun q hq => h q (by simp [hq]))

/-- The element selected by the minimum-timestamp fold is one of the cache
entries. -/
theorem foldl_min_timestamp_mem :
    ∀ (rest : List (String × TBResult)) (best : String × TBResult),
      rest.foldl
        (fun best p => if p.2.timestamp < best.2.timestamp then p else best)
        best ∈ best :: rest := by
  intro rest
  induction rest with
  | nil => intro best; simp
  | cons p rs ih =>
      intro best
      rw [List.foldl_cons]
      by_cases hp : p.2.timestamp < best.2.timestamp
      · rw [if_pos hp]
        have := ih p
        rcases List.mem_cons.mp this with h | h
        · simp [h]
        · simp [List.mem_cons_of_mem, h]
      · rw [if_neg hp]
        have := ih best
        rcases List.mem_cons.mp this with h | h
        · simp [h]
        · simp [List.mem_cons_of_mem, h]

theorem dictErase_length_of_mem {β : Type} :
    ∀ {d : List (String × β)} {k : String}, k ∈ d.map Prod.fst →
      (dictErase d k).length + 1 = d.length := by
  intro d
  induction d with
  | nil => intro k h; simp at h
  | cons p rest ih =>
      intro k h
      by_cases hpk : p.1 = k
      · unfold dictErase
        rw [if_pos (by simp [hpk])]
        simp
      · unfold dictErase
        rw [if_neg (by simp [hpk])]
        have hk : k ∈ rest.map Prod.fst := by
          rw [List.map_cons] at h
          rcases List.mem_cons.mp h with h1 | h1
          · exact absurd h1.symm hpk
          · exact h1
        simp only [List.length_cons, ← ih hk]

/-- C7: the bounded result caches evict strictly by insertion order and never
exceed their capacity.  (a) `ClaudeAnalyzer._update_cache` keeps the cache at
or below capacity; (b) inserting N+1 distinct keys into an initially empty
cache of capacity N > 0 leaves exactly the keys after the first, in insertion
order — the first-inserted key is evicted, all others survive; (c) the
minimum-timestamp eviction of `ToxicBertAnalyzer.analyze_text` selects the
first-inserted entry whenever timestamps increase with insertion order (a
cache hit does not touch timestamps, so access recency is irrelevant); and
(d) `ToxicBertAnalyzer.analyze_text` also keeps its cache at or below a
positive capacity. -/
theorem c7_cache_eviction :
    (∀ (β : Type) (cap : Nat) (c : List (String × β)) (k : String) (v : β),
      0 < cap → c.length ≤ cap →
      (ClaudeAnalyzer.update_cache cap c k v).length ≤ cap) ∧
    (∀ (β : Type) (N : Nat) (ks : List (String × β)),
      0 < N → ks.length = N + 1 → (ks.map Prod.fst).Nodup →
      (ks.foldl
        (fun c kv => ClaudeAnalyzer.update_cache N c kv.1 kv.2) []).map
          Prod.fst = (ks.map Prod.fst).drop 1) ∧
    (∀ (k : String × TBResult) (rest : List (String × TBResult)),
      (∀ p ∈ rest, k.2.timestamp < p.2.timestamp) →
      ToxicBertAnalyzer.oldest_key (k :: rest) = some k.1) ∧
    (∀ (compute : String → Option (ℚ × List ToxicityCategory))
       (cap : Nat) (cache : List (String × TBResult)) (text : String)
       (now : Nat), 0 < cap → cache.length ≤ cap →
      (ToxicBertAnalyzer.analyze_text compute cap cache text now).2.length ≤
        cap) := by
  refine ⟨?_, ?_, ?_, ?_⟩
  · intro β cap c k v hcap hlen
    unfold ClaudeAnalyzer.update_cache
    dsimp only
    by_cases hfull : cap ≤ c.length
    · rw [if_pos hfull]
      have := dictInsert_length_le (c.drop 1) k v
      have hd : (c.drop 1).length = c.length - 1 := by simp
      omega
    · rw [if_neg hfull]
      have := dictInsert_length_le c k v
      omega
  · intro β N ks hN hlen hnodup
    have hne : ks ≠ [] := by
      intro h
      rw [h] at hlen
      simp at hlen
    have hsplit : ks.dropLast ++ [ks.getLast hne] = ks :=
      List.dropLast_append_getLast hne
    have hinitlen : ks.dropLast.length = N := by
      simp [hlen]
    have hkeys : ks.map Prod.fst =
        ks.dropLast.map Prod.fst ++ [(ks.getLast hne).1] := by
      conv_lhs => rw [← hsplit]
      simp
    have hinitnodup : ((([] : List (String × β)) ++ ks.dropLast).map
        Prod.fst).Nodup := by
      simp only [List.nil_append]
      have := hnodup
      rw [hkeys] at this
      exact (List.nodup_append.mp this).1
    have hfill : ks.dropLast.foldl
        (fun c kv => ClaudeAnalyzer.update_cache N c kv.1 kv.2) [] =
        ks.dropLast := by
      have := foldl_update_cache_fill N ks.dropLast []
        (by simp [hinitlen]) hinitnodup
      simpa using this
    have hlast_fresh : (ks.getLast hne).1 ∉ ks.dropLast.map Prod.fst := by
      have := hnodup
      rw [hkeys] at this
      have hdisj := List.disjoint_of_nodup_append this
      intro hmem
      exact hdisj hmem (by simp)
    have hlast_fresh_drop :
        (ks.getLast hne).1 ∉ (ks.dropLast.drop 1).map Prod.fst := by
      intro hmem
      apply hlast_fresh
      simp only [List.map_drop] at hmem
      exact List.mem_of_mem_drop hmem
    have hstep : ClaudeAnalyzer.update_cache N ks.dropLast
        (ks.getLast hne).1 (ks.getLast hne).2 =
        ks.dropLast.drop 1 ++ [ks.getLast hne] := by
      unfold ClaudeAnalyzer.update_cache
      rw [if_pos (by omega)]
      rw [dictInsert_of_not_mem hlast_fresh_drop]
    conv_lhs => rw [← hsplit]
    rw [List.foldl_append, hfill]
    simp only [List.foldl_cons, List.foldl_nil]
    rw [hstep, hkeys]
    cases hks : ks.dropLast with
    | nil =>
        rw [hks] at hinitlen
        simp at hinitlen
        omega
    | cons x xs =>
        simp
  · intro k rest h
    have hok : ToxicBertAnalyzer.oldest_key (k :: rest) =
        some ((rest.foldl (fun best p =>
          if p.2.timestamp < best.2.timestamp then p else best) k).1) := rfl
    rw [hok, foldl_min_timestamp_eq_of_not_lt rest k
      (fun p hp => Nat.lt_asymm (h p hp))]
  · intro compute cap cache text now hcap hlen
    unfold ToxicBertAnalyzer.analyze_text
    cases hl : cache.lookup text with
    | some r => simpa using hlen
    | none =>
        cases hcmp : compute text with
        | none => simpa using hlen
        | some p =>
            obtain ⟨sc, cats⟩ := p
            dsimp only
            by_cases hfull : cap ≤ cache.length
            · rw [if_pos hfull]
              have hcne : cache ≠ [] := by
                intro h
                rw [h] at hfull
                simp at hfull
                omega
              obtain ⟨c0, crest, hc⟩ :
                  ∃ c0 crest, cache = c0 :: crest := by
                cases cache with
                | nil => exact absurd rfl hcne
                | cons a l => exact ⟨a, l, rfl⟩
              subst hc
              have hmem := foldl_min_timestamp_mem crest c0
              rw [show ToxicBertAnalyzer.oldest_key (c0 :: crest) =
                some ((crest.foldl (fun best p =>
                  if p.2.timestamp < best.2.timestamp then p else best)
                  c0).1) from rfl]
              dsimp only
              have hkeymem : ((crest.foldl (fun best p =>
                  if p.2.timestamp < best.2.timestamp then p else best)
                  c0).1) ∈ (c0 :: crest).map Prod.fst :=
                List.mem_map.mpr ⟨_, hmem, rfl⟩
              have herase := dictErase_length_of_mem hkeymem
              have hins := dictInsert_length_le
                (dictErase (c0 :: crest) ((crest.foldl (fun best p =>
                  if p.2.timestamp < best.2.timestamp then p else best)
                  c0).1)) text
                ({ score := sc, is_toxic := decide ((3/10 : ℚ) ≤ sc),
                   confidence := ToxicBertAnalyzer.calculate_confidence sc
                     (!cats.isEmpty),
                   categories := cats, cache_hit := false,
                   timestamp := now } : TBResult)
              omega
            · rw [if_neg hfull]
              have hins := dictInsert_length_le cache text
                ({ score := sc, is_toxic := decide ((3/10 : ℚ) ≤ sc),
                   confidence := ToxicBertAnalyzer.calculate_confidence sc
                     (!cats.isEmpty),
                   categories := cats, cache_hit := false,
                   timestamp := now } : TBResult)
              omega

/-- Witness for C7 at concrete inputs: capacity bound and FIFO behavior on a
three-key insertion into a capacity-2 cache, first-inserted entry selected by
the timestamp minimum, and the embedding backend's cache size bound. -/
theorem c7_cache_eviction_witness :
    (ClaudeAnalyzer.update_cache 2 [("a", 1)] "b" (2 : Nat)).length ≤ 2 ∧
    ([(("a", 1) : String × Nat), ("b", 2), ("c", 3)].foldl
      (fun c kv => ClaudeAnalyzer.update_cache 2 c kv.1 kv.2) []).map
        Prod.fst = ["b", "c"] ∧
    ToxicBertAnalyzer.oldest_key
      [("a", ⟨0, false, 0, [], false, 0⟩), ("b", ⟨0, false, 0, [], false, 1⟩)]
      = some "a" ∧
    (ToxicBertAnalyzer.analyze_text (fun _ => some (1/2, [])) 1
      [("a", ⟨0, false, 0, [], false, 0⟩)] "b" 5).2.length ≤ 1 := by
  refine ⟨?_, ?_, ?_, ?_⟩
  · exact c7_cache_eviction.1 Nat 2 [("a", 1)] "b" 2 (by norm_num) (by simp)
  · have h := c7_cache_eviction.2.1 Nat 2
      [(("a", 1) : String × Nat), ("b", 2), ("c", 3)] (by norm_num)
      (by simp) (by simp)
    simpa using h
  · exact c7_cache_eviction.2.2.1 ("a", ⟨0, false, 0, [], false, 0⟩)
      [("b", ⟨0, false, 0, [], false, 1⟩)] (by simp)
  · exact c7_cache_eviction.2.2.2 (fun _ => some (1/2, [])) 1
      [("a", ⟨0, false, 0, [], false, 0⟩)] "b" 5 (by norm_num) (by simp)

/-- A cache hit in `ClaudeAnalyzer.analyze_text` returns the stored result
with the cached flag switched on and leaves the cache untouched. -/
theorem claude_analyze_text_hit (computeResult : String → Option ClaudeResult)
    (cache_size : Nat) (cache : List (String × ClaudeResult)) (text : String)
    (r : ClaudeResult) (h : cache.lookup text = some r) :
    ClaudeAnalyzer.analyze_text computeResult cache_size cache text =
      ({ r with cached := true }, cache) := by
  unfold ClaudeAnalyzer.analyze_text
  rw [h]

/-- A cache miss with a successful computation in
`ClaudeAnalyzer.analyze_text` returns the fresh result and stores it. -/
theorem claude_analyze_text_miss_ok
    (computeResult : String → Option ClaudeResult) (cache_size : Nat)
    (cache : List (String × ClaudeResult)) (text : String) (r : ClaudeResult)
    (hl : cache.lookup text = none) (hc : computeResult text = some r) :
    ClaudeAnalyzer.analyze_text computeResult cache_size cache text =
      (r, ClaudeAnalyzer.update_cache cache_size cache text r) := by
  unfold ClaudeAnalyzer.analyze_text
  rw [hl, hc]

/-- Looking up the just-stored text after `_update_cache` yields the stored
result. -/
theorem claude_update_cache_lookup_self {β : Type} (cache_size : Nat)
    (cache : List (String × β)) (text : String) (r : β) :
    (ClaudeAnalyzer.update_cache cache_size cache text r).lookup text =
      some r := by
  unfold ClaudeAnalyzer.update_cache
  dsimp only
  exact lookup_dictInsert_self _ _ _

/-- A cache hit in `ToxicBertAnalyzer.analyze_text` returns the stored result
with the cache-hit flag switched on and leaves the cache untouched. -/
theorem tb_analyze_text_hit
    (computeScore : String → Option (ℚ × List ToxicityCategory))
    (max_cache_size : Nat) (cache : List (String × TBResult)) (text : String)
    (now : Nat) (r : TBResult) (h : cache.lookup text = some r) :
    ToxicBertAnalyzer.analyze_text computeScore max_cache_size cache text now =
      ({ r with cache_hit := true }, cache) := by
  unfold ToxicBertAnalyzer.analyze_text
  rw [h]

/-- A cache miss with a successful computation in
`ToxicBertAnalyzer.analyze_text` builds the result record, runs the eviction
block, and stores the result. -/
theorem tb_analyze_text_miss_ok
    (computeScore : String → Option (ℚ × List ToxicityCategory))
    (max_cache_size : Nat) (cache : List (String × TBResult)) (text : String)
    (now : Nat) (sc : ℚ) (cats : List ToxicityCategory)
    (hl : cache.lookup text = none) (hc : computeScore text = some (sc, cats)) :
    ToxicBertAnalyzer.analyze_text computeScore max_cache_size cache text now =
      ({ score := sc, is_toxic := decide ((3/10 : ℚ) ≤ sc),
         confidence :=
           ToxicBertAnalyzer.calculate_confidence sc (!cats.isEmpty),
         categories := cats, cache_hit := false, timestamp := now },
       dictInsert
         (if max_cache_size ≤ cache.length then
           match ToxicBertAnalyzer.oldest_key cache with
           | some oldest => dictErase cache oldest
           | none => cache
         else cache) text
         { score := sc, is_toxic := decide ((3/10 : ℚ) ≤ sc),
           confidence :=
             ToxicBertAnalyzer.calculate_confidence sc (!cats.isEmpty),
           categories := cats, cache_hit := false, timestamp := now }) := by
  unfold ToxicBertAnalyzer.analyze_text
  rw [hl, hc]

/-- C8: for both cached backends, a fresh (cache-cold) successful invocation
followed by a second invocation with the same text yields a second outcome
identical to the first — same score, categories and confidence — except that
its from-cache observability flag is switched on. -/
theorem c8_cache_transparency :
    (∀ (computeResult : String → Option ClaudeResult) (cache_size : Nat)
       (cache : List (String × ClaudeResult)) (text : String)
       (r : ClaudeResult),
      cache.lookup text = none → computeResult text = some r →
      (ClaudeAnalyzer.analyze_text computeResult cache_size
        (ClaudeAnalyzer.analyze_text computeResult cache_size cache
          text).2 text).1 =
      { (ClaudeAnalyzer.analyze_text computeResult cache_size cache text).1
        with cached := true }) ∧
    (∀ (computeScore : String → Option (ℚ × List ToxicityCategory))
       (max_cache_size : Nat) (cache : List (String × TBResult))
       (text : String) (now1 now2 : Nat) (sc : ℚ)
       (cats : List ToxicityCategory),
      cache.lookup text = none → computeScore text = some (sc, cats) →
      (ToxicBertAnalyzer.analyze_text computeScore max_cache_size
        (ToxicBertAnalyzer.analyze_text computeScore max_cache_size cache
          text now1).2 text now2).1 =
      { (ToxicBertAnalyzer.analyze_text computeScore max_cache_size cache
          text now1).1 with cache_hit := true }) := by
  constructor
  · intro computeResult cache_size cache text r hl hc
    rw [claude_analyze_text_miss_ok computeResult cache_size cache text r
      hl hc]
    rw [claude_analyze_text_hit computeResult cache_size _ text r
      (claude_update_cache_lookup_self cache_size cache text r)]
  · intro computeScore max_cache_size cache text now1 now2 sc cats hl hc
    rw [tb_analyze_text_miss_ok computeScore max_cache_size cache text now1
      sc cats hl hc]
    rw [tb_analyze_text_hit computeScore max_cache_size _ text now2 _
      (lookup_dictInsert_self _ text _)]

/-- Witness for C8 at concrete inputs: warm-call results equal the cold-call
results except for the observability flag, for both cached backends. -/
theorem c8_cache_transparency_witness :
    (ClaudeAnalyzer.analyze_text (fun _ => some ⟨1/2, [], 9/10, false⟩) 100
      (ClaudeAnalyzer.analyze_text (fun _ => some ⟨1/2, [], 9/10, false⟩) 100
        [] "hi").2 "hi").1 =
    { (ClaudeAnalyzer.analyze_text (fun _ => some ⟨1/2, [], 9/10, false⟩) 100
        [] "hi").1 with cached := true } ∧
    (ToxicBertAnalyzer.analyze_text (fun _ => some (1/2, [])) 100
      (ToxicBertAnalyzer.analyze_text (fun _ => some (1/2, [])) 100
        [] "hi" 7).2 "hi" 8).1 =
    { (ToxicBertAnalyzer.analyze_text (fun _ => some (1/2, [])) 100
        [] "hi" 7).1 with cache_hit := true } :=
  ⟨c8_cache_transparency.1 (fun _ => some ⟨1/2, [], 9/10, false⟩) 100 []
    "hi" ⟨1/2, [], 9/10, false⟩ rfl rfl,
   c8_cache_transparency.2 (fun _ => some (1/2, [])) 100 [] "hi" 7 8
    (1/2) [] rfl rfl⟩
